import Mathlib

/-!
# Verification of the `structutil` request-binding and validation-error engine

Shallow embedding of the tag-driven binding/validation core of
`shoraid/stx-go-utils` (package `structutil`), together with theorems
settling the specification claims.

Embedded source files:

* `structutil/struct.go` — `BindJSON`
* `structutil/json_validation.go` — `Validate`, `BindAndValidateJSON`,
  `getErrorMessage`, `getJSONTagName`, `buildJSONPath`, `getJsonErrorMessage`
* `structutil/validation.go` — the legacy duplicate `getErrorMessage`
  (embedded here as `getErrorMessageLegacy`)
* the form-binding file (`BindForm`, `bindFormValues`, `setFieldValue`,
  `setScalarValue`, `setFileFieldValue`, `isFileField`, `FormTypeError`,
  `ValidateForm`, `BindAndValidateForm`, `getFormTagName`, `buildFormPath`,
  `getFormErrorMessage`)

Modelling conventions:

* Go `error` values are the inductive `GoError`.  The dynamic type switches
  in `getJsonErrorMessage`/`getFormErrorMessage` become constructor matches.
  `encoding/json` facts used at the interface boundary: the strict decoder
  (`DisallowUnknownFields`) reports an undeclared key with a plain
  `errors.New`-style error (constructor `jsonUnknownField`), never with a
  `*json.SyntaxError` or `*json.UnmarshalTypeError`; an empty body yields
  `io.EOF` (constructor `ioEOF`); `strconv` parse failures are
  `*strconv.NumError` (constructor `strconvError`).
* Go's `map[string][]string` built by `m[k] = append(m[k], v)` is modelled
  as an insertion-ordered association list (`FieldErrorMap`); a `nil` map is
  `none` in `Option FieldErrorMap`, a non-nil map is `some`.
* `reflect` struct types are the inductive `GoType`; a struct field is the
  tuple (name, json tag, form tag, type), where the tag components hold the
  exact string Go's `Tag.Get("json")` / `Tag.Get("form")` returns (absent
  tag = `""`).  `FieldByName` on a non-struct type (which would panic in Go,
  and is unreachable through the embedded walks) is modelled as a failed
  lookup.  All modelled fields are exported (`CanSet` holds).
* The external constraint engine (`go-playground/validator`) is a
  collaborator: its verdict is a parameter `Option (List FieldError)`
  (`none` = no violation; a returned `validator.ValidationErrors` list
  otherwise).  A violation carries the pieces the embedded code reads:
  `Tag()`, `Param()` and `StructNamespace()`.  For nil-pointer or
  non-struct inputs `Validator.Struct` instead returns a third thing, a
  `*validator.InvalidValidationError`; the unchecked
  `err.(validator.ValidationErrors)` cast in the validation pass then
  panics.  `EngineVerdict` refines the verdict with that case, and
  `ValidateFormFull`/`BindAndValidateFormFull` model the form pass over it,
  with `Outcome.panicked` for a run that panics instead of returning.
* Go's numeric field kinds are represented by `intT`/`uintT` (64-bit
  semantics of `strconv.ParseInt`/`ParseUint` base 10), `boolT`
  (`strconv.ParseBool`) and `stringT`; float fields are outside the
  modelled fragment (no claim mentions them).  A nil Go slice and an empty
  Go slice are both modelled as `[]` (no claim distinguishes them).
-/

namespace StxGoUtils

/-- A Go struct type as seen through `reflect`, restricted to the kinds the
embedded code inspects.  A struct field is `(name, jsonTag, formTag, type)`
with the tag entries holding exactly what `Tag.Get` returns. -/
inductive GoType where
  | stringT
  | intT
  | uintT
  | boolT
  | filePtr
  | fileSlice
  | ptr (elem : GoType)
  | slice (elem : GoType)
  | structT (goName : String) (fields : List (String × String × String × GoType))

/-- A struct field: internal name, raw `json` tag, raw `form` tag, type. -/
abbrev GoField := String × String × String × GoType

/-- Internal identifier of a field (`reflect.StructField.Name`). -/
def fieldName (f : GoField) : String := f.1

/-- Raw `json` struct tag of a field (`field.Tag.Get("json")`). -/
def fieldJsonTag (f : GoField) : String := f.2.1

/-- Raw `form` struct tag of a field (`field.Tag.Get("form")`). -/
def fieldFormTag (f : GoField) : String := f.2.2.1

/-- Declared type of a field (`reflect.StructField.Type`). -/
def fieldType (f : GoField) : GoType := f.2.2.2

/-- `reflect.Type.String()` display name, for the kinds in the fragment. -/
def typeString : GoType → String
  | .stringT => "string"
  | .intT => "int"
  | .uintT => "uint"
  | .boolT => "bool"
  | .filePtr => "*multipart.FileHeader"
  | .fileSlice => "[]*multipart.FileHeader"
  | .ptr t => "*" ++ typeString t
  | .slice t => "[]" ++ typeString t
  | .structT n _ => n

/-- A multipart file attachment (`*multipart.FileHeader`), opaque except for
its name. -/
structure FileHeader where
  filename : String
  deriving DecidableEq

/-- A Go value of one of the modelled kinds. -/
inductive GoValue where
  | vStr (s : String)
  | vInt (n : Int)
  | vUint (n : Nat)
  | vBool (b : Bool)
  | vPtr (v : Option GoValue)
  | vSlice (elems : List GoValue)
  | vStruct (fields : List GoValue)
  | vFilePtr (f : Option FileHeader)
  | vFiles (fs : List FileHeader)

/-- The Go `error` values flowing through the embedded code: the two
`apperror` sentinels it produces, the decoder/parser error types its type
switches distinguish, and the generic errors that match no switch case. -/
inductive GoError where
  | err400InvalidBody
  | err400InvalidData
  | jsonSyntaxError (offset : Int)
  | jsonUnmarshalTypeError (value : String) (typeName : String) (field : String)
  | formTypeError (field : String) (expected : String) (got : String)
  | strconvError (input : String)
  | ioEOF
  | jsonUnknownField (key : String)
  | errorString (msg : String)
  deriving DecidableEq

/-- `map[string][]string` as an insertion-ordered association list. -/
abbrev FieldErrorMap := List (String × List String)

/-- `m[k] = append(m[k], msg)`: append to an existing key's message list,
or insert the key at the end. -/
def mapAppend (m : FieldErrorMap) (k : String) (msg : String) : FieldErrorMap :=
  match m with
  | [] => [(k, [msg])]
  | (k', ms) :: rest =>
    if k' = k then (k', ms ++ [msg]) :: rest else (k', ms) :: mapAppend rest k msg

/-- The slice of a `validator.FieldError` the embedded code reads:
`Tag()`, `Param()` and `StructNamespace()`. -/
structure FieldError where
  tag : String
  param : String
  structNamespace : String
  deriving DecidableEq

/-- Character loop behind `splitOnChar`. -/
def splitOnCharAux (sep : Char) : List Char → List Char → List String
  | [], acc => [String.mk acc.reverse]
  | c :: rest, acc =>
    if c = sep then String.mk acc.reverse :: splitOnCharAux sep rest []
    else splitOnCharAux sep rest (c :: acc)

/-- `strings.Split(s, sep)` for a one-character separator (the only
separators the embedded code splits on are `","`, `"."`, `"["`, `"]"`);
in particular `splitOnChar sep "" = [""]`, like `strings.Split`. -/
def splitOnChar (sep : Char) (s : String) : List String :=
  splitOnCharAux sep s.data []

/-- `strings.Contains(s, c)` for a one-character substring. -/
def containsChar (s : String) (c : Char) : Bool :=
  s.data.any (fun x => x == c)

/-- `strings.ReplaceAll(s, " ", ", ")` (one-character pattern, so every
space is independently rewritten). -/
def replaceSpaceWithCommaSpace (s : String) : String :=
  String.mk (s.data.foldr (fun c acc => if c = ' ' then ',' :: ' ' :: acc else c :: acc) [])

/-- `strings.Join(parts, sep)`. -/
def stringsJoin (sep : String) : List String → String
  | [] => ""
  | [x] => x
  | x :: rest => x ++ sep ++ stringsJoin sep rest

/-- `strings.Split(tag, ",")[0]`: the part of a struct tag before the first
comma (`strings.Split` always returns at least one element). -/
def tagHead (tag : String) : String := (splitOnChar ',' tag).headD ""

/-- `getErrorMessage` from `structutil/json_validation.go` (also the
translator `ValidateForm` uses): violation kind to message. -/
def getErrorMessage (fe : FieldError) : String :=
  if fe.tag = "required" then "field is required"
  else if fe.tag = "email" then "field must be a valid email address"
  else if fe.tag = "max" then "maximum length is " ++ fe.param
  else if fe.tag = "min" then "minimum value is " ++ fe.param
  else if fe.tag = "boolean" then "field must be a boolean"
  else if fe.tag = "oneof" then "field must be one of: " ++ replaceSpaceWithCommaSpace fe.param
  else if fe.tag = "uuid" then "field must be a valid UUID"
  else "field is invalid"

/-- `getErrorMessage` from `structutil/validation.go`, the legacy duplicate
implementation: it has no `email` and no `uuid` case. -/
def getErrorMessageLegacy (fe : FieldError) : String :=
  if fe.tag = "required" then "field is required"
  else if fe.tag = "max" then "maximum length is " ++ fe.param
  else if fe.tag = "min" then "minimum value is " ++ fe.param
  else if fe.tag = "boolean" then "field must be a boolean"
  else if fe.tag = "oneof" then "field must be one of: " ++ replaceSpaceWithCommaSpace fe.param
  else "field is invalid"

/-- `getJSONTagName`: external JSON name of a field, falling back to the
internal identifier when the tag's first component is empty or `"-"`. -/
def getJSONTagName (field : GoField) : String :=
  let tag := fieldJsonTag field
  let name := tagHead tag
  if name = "" ∨ name = "-" then fieldName field else name

/-- `getFormTagName`: external form name of a field, same fallback rule. -/
def getFormTagName (field : GoField) : String :=
  let tag := fieldFormTag field
  let name := tagHead tag
  if name = "" ∨ name = "-" then fieldName field else name

/-- `reflect.Type.FieldByName` restricted to flat (non-embedded) structs.
On a non-struct type the lookup fails (Go would panic there; the embedded
walks never reach that case). -/
def fieldByName (t : GoType) (name : String) : Option GoField :=
  match t with
  | .structT _ fs => fs.find? (fun f => fieldName f == name)
  | _ => none

/-- `part[:strings.Index(part, "[")]`: text before the first `[`. -/
def bracketName (part : String) : String := (splitOnChar '[' part).headD ""

/-- `part[strings.Index(part,"[")+1 : strings.Index(part,"]")]`: text
between the first `[` and the first following `]`. -/
def bracketIndex (part : String) : String :=
  (splitOnChar ']' (((splitOnChar '[' part).drop 1).headD "")).headD ""

/-- `if current.Kind() == reflect.Slice { current = current.Elem() }`. -/
def sliceElem (t : GoType) : GoType :=
  match t with
  | .slice e => e
  | _ => t

/-- `if current.Kind() == reflect.Ptr { current = current.Elem() }`. -/
def derefPtr (t : GoType) : GoType :=
  match t with
  | .ptr e => e
  | _ => t

/-- The segment loop of `buildJSONPath`: walk the dotted violation path,
keeping a cursor type, collecting external path segments. -/
def buildJSONPathAux : List String → GoType → List String → List String
  | [], _, path => path
  | part :: rest, current, path =>
    if part = "" then buildJSONPathAux rest current path
    else if containsChar part '[' then
      match fieldByName current (bracketName part) with
      | some field =>
        let jsonKey := getJSONTagName field
        buildJSONPathAux rest (derefPtr (sliceElem (fieldType field)))
          (path ++ [jsonKey ++ "." ++ bracketIndex part])
      | none => buildJSONPathAux rest current path
    else
      match fieldByName current part with
      | some field =>
        let jsonKey := getJSONTagName field
        buildJSONPathAux rest (derefPtr (fieldType field)) (path ++ [jsonKey])
      | none => buildJSONPathAux rest current path

/-- `buildJSONPath`: resolve a violation's `StructNamespace()` to the
dot-joined external JSON path. -/
def buildJSONPath (root : GoType) (fe : FieldError) : String :=
  stringsJoin "." (buildJSONPathAux (splitOnChar '.' fe.structNamespace) root [])

/-- The segment loop of `buildFormPath` (identical walk, `form` tags). -/
def buildFormPathAux : List String → GoType → List String → List String
  | [], _, path => path
  | part :: rest, current, path =>
    if part = "" then buildFormPathAux rest current path
    else if containsChar part '[' then
      match fieldByName current (bracketName part) with
      | some field =>
        let formKey := getFormTagName field
        buildFormPathAux rest (derefPtr (sliceElem (fieldType field)))
          (path ++ [formKey ++ "." ++ bracketIndex part])
      | none => buildFormPathAux rest current path
    else
      match fieldByName current part with
      | some field =>
        let formKey := getFormTagName field
        buildFormPathAux rest (derefPtr (fieldType field)) (path ++ [formKey])
      | none => buildFormPathAux rest current path

/-- `buildFormPath`: resolve a violation's `StructNamespace()` to the
dot-joined external form path. -/
def buildFormPath (root : GoType) (fe : FieldError) : String :=
  stringsJoin "." (buildFormPathAux (splitOnChar '.' fe.structNamespace) root [])

/-- `Validate` from `structutil/json_validation.go`.  The constraint
engine's verdict on the record instance is the parameter `engineResult`
(`none`: `validate.Struct` returned nil; `some ves`: it returned the
`validator.ValidationErrors` list `ves`).  `root` is the record's type
with one level of pointer already dereferenced. -/
def Validate (engineResult : Option (List FieldError)) (root : GoType) :
    Option FieldErrorMap × Option GoError :=
  match engineResult with
  | none => (none, none)
  | some ves =>
    let m := ves.foldl (fun acc fe => mapAppend acc (buildJSONPath root fe) (getErrorMessage fe)) []
    (some m, some .err400InvalidData)

/-- `ValidateForm`: same pass keyed by `form` tags via `buildFormPath`. -/
def ValidateForm (engineResult : Option (List FieldError)) (root : GoType) :
    Option FieldErrorMap × Option GoError :=
  match engineResult with
  | none => (none, none)
  | some ves =>
    let m := ves.foldl (fun acc fe => mapAppend acc (buildFormPath root fe) (getErrorMessage fe)) []
    (some m, some .err400InvalidData)

/-- `getJsonErrorMessage`: the type switch converting a decode error into a
one-entry field-error map; only `*json.SyntaxError` and a
`*json.UnmarshalTypeError` with a non-empty `Field` are converted. -/
def getJsonErrorMessage (err : GoError) : Option FieldErrorMap × Option GoError :=
  match err with
  | .jsonSyntaxError _ =>
    (some [("json", ["invalid JSON format: please check for missing commas, braces, or quotes"])],
     some .err400InvalidBody)
  | .jsonUnmarshalTypeError _ typeName field =>
    if field ≠ "" then
      (some [(field, ["invalid type, expected " ++ typeName])], some .err400InvalidData)
    else (none, none)
  | _ => (none, none)

/-- `BindJSON` from `structutil/struct.go`: a nil body is
`apperror.Err400InvalidBody`; otherwise the strict decoder's outcome
(`decodeResult`, `none` on success) is returned as-is. -/
def BindJSON (bodyNil : Bool) (decodeResult : Option GoError) : Option GoError :=
  if bodyNil then some .err400InvalidBody else decodeResult

/-- `BindAndValidateJSON`: bind, convert a convertible decode error and
return it, otherwise fall through to `Validate`. -/
def BindAndValidateJSON (bodyNil : Bool) (decodeResult : Option GoError)
    (engineResult : Option (List FieldError)) (root : GoType) :
    Option FieldErrorMap × Option GoError :=
  match BindJSON bodyNil decodeResult with
  | some err =>
    let r := getJsonErrorMessage err
    match r.2 with
    | some jsonErr => (r.1, some jsonErr)
    | none => Validate engineResult root
  | none => Validate engineResult root

/-- `strconv.ParseInt(value, 10, 64)`: optional single sign, base-10 digits
only, result within the signed 64-bit range; `none` on any failure. -/
def parseIntGo (s : String) : Option Int :=
  if s = "" then none
  else
    let (neg, digits) :=
      match s.data with
      | '-' :: rest => (true, rest)
      | '+' :: rest => (false, rest)
      | l => (false, l)
    if digits = [] then none
    else if digits.all Char.isDigit then
      let n : Nat := digits.foldl (fun acc c => acc * 10 + (c.toNat - 48)) 0
      let v : Int := if neg then -(n : Int) else (n : Int)
      if v < -(2 ^ 63 : Int) ∨ (2 ^ 63 : Int) - 1 < v then none else some v
    else none

/-- `strconv.ParseUint(value, 10, 64)`: base-10 digits only (no sign),
result within the unsigned 64-bit range. -/
def parseUintGo (s : String) : Option Nat :=
  if s = "" then none
  else if s.data.all Char.isDigit then
    let n : Nat := s.data.foldl (fun acc c => acc * 10 + (c.toNat - 48)) 0
    if n ≤ 2 ^ 64 - 1 then some n else none
  else none

/-- `strconv.ParseBool(value)`: the twelve canonical boolean strings. -/
def parseBoolGo (s : String) : Option Bool :=
  if s = "1" ∨ s = "t" ∨ s = "T" ∨ s = "true" ∨ s = "TRUE" ∨ s = "True" then some true
  else if s = "0" ∨ s = "f" ∨ s = "F" ∨ s = "false" ∨ s = "FALSE" ∨ s = "False" then some false
  else none

/-- The zero `GoValue` of a type (`reflect.New(t).Elem()`).  The zero of a
struct type is modelled structurally empty: the binder only ever reads it
through `setScalarValue`, which rejects struct-typed fields before
inspecting the value. -/
def zeroValue : GoType → GoValue
  | .stringT => .vStr ""
  | .intT => .vInt 0
  | .uintT => .vUint 0
  | .boolT => .vBool false
  | .filePtr => .vFilePtr none
  | .fileSlice => .vFiles []
  | .ptr _ => .vPtr none
  | .slice _ => .vSlice []
  | .structT _ _ => .vStruct []

/-- `setScalarValue`: coerce one raw string into a scalar field.  The
switch on `fieldValue.Kind()`: strings verbatim; int/uint/bool parse unless
the raw value is empty (empty leaves the current value untouched, no
error); every other kind is a `FormTypeError` with an empty field name. -/
def setScalarValue (t : GoType) (cur : GoValue) (value : String) : Except GoError GoValue :=
  match t with
  | .stringT => .ok (.vStr value)
  | .intT =>
    if value = "" then .ok cur
    else
      match parseIntGo value with
      | some n => .ok (.vInt n)
      | none => .error (.strconvError value)
  | .uintT =>
    if value = "" then .ok cur
    else
      match parseUintGo value with
      | some n => .ok (.vUint n)
      | none => .error (.strconvError value)
  | .boolT =>
    if value = "" then .ok cur
    else
      match parseBoolGo value with
      | some b => .ok (.vBool b)
      | none => .error (.strconvError value)
  | other => .error (.formTypeError "" (typeString other) value)

/-- Element loop of the non-string slice branch of `setFieldValue`:
coerce each raw value into a fresh zero element, aborting on the first
failure. -/
def setElems (elemT : GoType) : List String → Except GoError (List GoValue)
  | [] => .ok []
  | v :: rest =>
    match setScalarValue elemT (zeroValue elemT) v with
    | .error e => .error e
    | .ok gv =>
      match setElems elemT rest with
      | .error e => .error e
      | .ok gvs => .ok (gv :: gvs)

/-- `setFieldValue`: pointer fields stay untouched on an empty first value,
otherwise allocate and coerce; `[]string` takes the raw list verbatim;
other slices coerce element-wise; scalars go through `setScalarValue`.
On error the field keeps its previous value (Go only calls `Set` after a
successful coercion). -/
def setFieldValue (t : GoType) (cur : GoValue) (values : List String) : Except GoError GoValue :=
  match t with
  | .ptr elem =>
    if values.headD "" = "" then .ok cur
    else
      match setFieldValue elem (zeroValue elem) values with
      | .error e => .error e
      | .ok inner => .ok (.vPtr (some inner))
  | .slice elemT =>
    match elemT with
    | .stringT => .ok (.vSlice (values.map GoValue.vStr))
    | other =>
      match setElems other values with
      | .error e => .error e
      | .ok elems => .ok (.vSlice elems)
  | other => setScalarValue other cur (values.headD "")

/-- `isFileField`: the two multipart file types. -/
def isFileField (t : GoType) : Bool :=
  match t with
  | .filePtr => true
  | .fileSlice => true
  | _ => false

/-- `setFileFieldValue`: no attachments is a no-op; a single-file field
takes the first attachment, a file-list field the whole list.  It never
fails. -/
def setFileFieldValue (cur : GoValue) (t : GoType) (files : List FileHeader) : GoValue :=
  match files with
  | [] => cur
  | f0 :: _ =>
    match t with
    | .filePtr => .vFilePtr (some f0)
    | .fileSlice => .vFiles files
    | _ => cur

/-- The binding target of `bindFormValues` as `reflect` sees it: a nil
pointer, a non-pointer, a pointer to a non-struct, or a pointer to a struct
(field descriptors paired with the current field values). -/
inductive FormTarget where
  | nilPtr
  | nonPtr (v : GoValue)
  | ptrNonStruct (v : GoValue)
  | ptrStruct (fields : List GoField) (vals : List GoValue)

/-- One iteration of the field loop in `bindFormValues`: skip untagged or
suppressed fields, bind file fields from the multipart set, bind the rest
from the key/value list (absent or empty value lists are skipped), and wrap
a coercion failure into a `FormTypeError` keyed by the external form name.
Returns the (possibly updated) field value and the error, the field keeping
its old value on error. -/
def bindOneField (values : List (String × List String))
    (mform : Option (List (String × List FileHeader)))
    (f : GoField) (v : GoValue) : GoValue × Option GoError :=
  let formTag := fieldFormTag f
  if formTag = "" ∨ formTag = "-" then (v, none)
  else
    let formKey := tagHead formTag
    if isFileField (fieldType f) then
      match mform with
      | some mf => (setFileFieldValue v (fieldType f) ((mf.lookup formKey).getD []), none)
      | none => (v, none)
    else
      match values.lookup formKey with
      | none => (v, none)
      | some [] => (v, none)
      | some (v0 :: vr) =>
        match setFieldValue (fieldType f) v (v0 :: vr) with
        | .ok v' => (v', none)
        | .error _ => (v, some (.formTypeError formKey (typeString (fieldType f)) v0))

/-- The field loop of `bindFormValues` over parallel field/value lists:
stop at the first error, leaving later fields at their old values. -/
def bindFields (values : List (String × List String))
    (mform : Option (List (String × List FileHeader))) :
    List GoField → List GoValue → List GoValue × Option GoError
  | [], vs => (vs, none)
  | _ :: _, [] => ([], none)
  | f :: fs, v :: vs =>
    match bindOneField values mform f v with
    | (v', some e) => (v' :: vs, some e)
    | (v', none) =>
      let (vs', e) := bindFields values mform fs vs
      (v' :: vs', e)

/-- `bindFormValues`: a target that is not a non-nil pointer to a struct is
`apperror.Err400InvalidBody`; otherwise run the field loop. -/
def bindFormValues (values : List (String × List String))
    (mform : Option (List (String × List FileHeader)))
    (input : FormTarget) : FormTarget × Option GoError :=
  match input with
  | .nilPtr => (.nilPtr, some .err400InvalidBody)
  | .nonPtr v => (.nonPtr v, some .err400InvalidBody)
  | .ptrNonStruct v => (.ptrNonStruct v, some .err400InvalidBody)
  | .ptrStruct fs vs =>
    let (vs', err) := bindFields values mform fs vs
    (.ptrStruct fs vs', err)

/-- `BindForm`: content-type detection and `ParseForm` /
`ParseMultipartForm` belong to the transport collaborator; a parse failure
(`parseErr`) is returned unchanged, otherwise `bindFormValues` runs on the
parsed key/value list and optional multipart part set. -/
def BindForm (parseErr : Option GoError) (values : List (String × List String))
    (mform : Option (List (String × List FileHeader)))
    (input : FormTarget) : FormTarget × Option GoError :=
  match parseErr with
  | some e => (input, some e)
  | none => bindFormValues values mform input

/-- `getFormErrorMessage`: the type switch converting a binding error; only
`*FormTypeError` and `*json.SyntaxError` are converted. -/
def getFormErrorMessage (err : GoError) : Option FieldErrorMap × Option GoError :=
  match err with
  | .formTypeError field expected _ =>
    (some [(field, ["invalid type, expected " ++ expected])], some .err400InvalidData)
  | .jsonSyntaxError _ =>
    (some [("form", ["invalid form data format"])], some .err400InvalidBody)
  | _ => (none, none)

/-- `BindAndValidateForm`: bind, convert a convertible binding error and
return it, otherwise fall through to `ValidateForm`. -/
def BindAndValidateForm (parseErr : Option GoError)
    (values : List (String × List String))
    (mform : Option (List (String × List FileHeader)))
    (input : FormTarget) (engineResult : Option (List FieldError)) (root : GoType) :
    Option FieldErrorMap × Option GoError :=
  match (BindForm parseErr values mform input).2 with
  | some err =>
    let r := getFormErrorMessage err
    match r.2 with
    | some formErr => (r.1, some formErr)
    | none => ValidateForm engineResult root
  | none => ValidateForm engineResult root

/-- The full range of `Validator.Struct`'s return: nil (no violation), a
`validator.ValidationErrors` list, or — for a nil-pointer or non-struct
input — a `*validator.InvalidValidationError`. -/
inductive EngineVerdict where
  | ok
  | violations (vs : List FieldError)
  | invalidValidation

/-- Result of running a Go function that may panic instead of returning. -/
inductive Outcome (α : Type) where
  | ret (val : α)
  | panicked
  deriving DecidableEq

/-- `ValidateForm` over the full engine verdict: on
`*validator.InvalidValidationError` (nil-pointer or non-struct input) the
error is non-nil but the unchecked `err.(validator.ValidationErrors)` cast
fails, so the function panics instead of returning. -/
def ValidateFormFull (ev : EngineVerdict) (root : GoType) :
    Outcome (Option FieldErrorMap × Option GoError) :=
  match ev with
  | .ok => .ret (none, none)
  | .violations ves =>
    let m := ves.foldl (fun acc fe => mapAppend acc (buildFormPath root fe) (getErrorMessage fe)) []
    .ret (some m, some .err400InvalidData)
  | .invalidValidation => .panicked

/-- `BindAndValidateForm` over the full engine verdict: a panic inside the
validation pass propagates to the caller. -/
def BindAndValidateFormFull (parseErr : Option GoError)
    (values : List (String × List String))
    (mform : Option (List (String × List FileHeader)))
    (input : FormTarget) (ev : EngineVerdict) (root : GoType) :
    Outcome (Option FieldErrorMap × Option GoError) :=
  match (BindForm parseErr values mform input).2 with
  | some err =>
    let r := getFormErrorMessage err
    match r.2 with
    | some formErr => .ret (r.1, some formErr)
    | none => ValidateFormFull ev root
  | none => ValidateFormFull ev root

/-! ## Sample shapes and inputs (used by witnesses and counterexamples) -/

/-- The `LoginRequest` shape of the repository's orchestrator tests. -/
def loginShape : GoType :=
  .structT "LoginRequest"
    [("Email", "email", "email", .stringT), ("Password", "password", "password", .stringT)]

/-- The `Role` element shape of the nested-validation tests. -/
def roleShape : GoType :=
  .structT "Role" [("ID", "id", "id", .stringT), ("Name", "name", "name", .stringT)]

/-- The `UserRequest` shape of the nested-validation tests. -/
def userShape : GoType :=
  .structT "UserRequest"
    [("Name", "name", "name", .stringT),
     ("Meta", "meta", "meta", .structT "Meta" [("Note", "note", "note", .stringT)]),
     ("Roles", "roles", "roles", .slice roleShape),
     ("PermissionIDs", "permissionIds", "permission_ids", .slice .stringT)]

/-- A string field bound from form key `name`. -/
def sampleNameField : GoField := ("Name", "", "name", .stringT)

/-- An int field bound from form key `age`. -/
def sampleAgeField : GoField := ("Age", "", "age", .intT)

/-- Submitted form data: a convertible `name` and an unparsable `age`. -/
def sampleFormValues : List (String × List String) := [("name", ["Alice"]), ("age", ["abc"])]

/-- The shape of the result of a validation pass the spec's invariant
allows: a nil map with no error, or a non-empty map with the
invalid-data error. -/
def fieldErrorMapInvariant (r : Option FieldErrorMap × Option GoError) : Prop :=
  r = (none, none) ∨ ∃ m, r.1 = some m ∧ m ≠ [] ∧ r.2 = some GoError.err400InvalidData

/-! ## Helper lemmas -/

theorem mapAppend_ne_nil (m : FieldErrorMap) (k msg : String) : mapAppend m k msg ≠ [] := by
  cases m with
  | nil => simp [mapAppend]
  | cons kv rest =>
    obtain ⟨k', ms⟩ := kv
    simp only [mapAppend]
    split <;> simp

theorem foldl_mapAppend_ne_nil (p q : FieldError → String) (vs : List FieldError)
    (acc : FieldErrorMap) (h : acc ≠ []) :
    vs.foldl (fun a fe => mapAppend a (p fe) (q fe)) acc ≠ [] := by
  induction vs generalizing acc with
  | nil => exact h
  | cons v rest ih => exact ih _ (mapAppend_ne_nil _ _ _)

/-- The refined form-validation model extends the plain one: on the two
verdicts a struct input can produce, `ValidateFormFull` returns exactly
what `ValidateForm` returns. -/
theorem validateFormFull_agrees (root : GoType) :
    ValidateFormFull EngineVerdict.ok root = Outcome.ret (ValidateForm none root) ∧
    ∀ vs, ValidateFormFull (EngineVerdict.violations vs) root
      = Outcome.ret (ValidateForm (some vs) root) := by
  exact ⟨rfl, fun vs => rfl⟩

/-! ## Claim C4 — error message translator -/

/-- Claim C4, counterexample: the claim asserts that every implementation of
the translator maps the `email` kind to "field must be a valid email
address", but the legacy implementation in `structutil/validation.go` has no
`email` case and maps it to the generic "field is invalid". -/
theorem getErrorMessageLegacy_email_generic :
    getErrorMessageLegacy ⟨"email", "", ""⟩ = "field is invalid" ∧
    getErrorMessageLegacy ⟨"email", "", ""⟩ ≠ "field must be a valid email address" := by
  exact ⟨rfl, by decide⟩

/-- Claim C4 (amended): both translators are total — an unrecognized
constraint kind yields "field is invalid", and each kind of the fixed table
yields its table message — but only the `json_validation.go` implementation
has the `email` (and `uuid`) entries; the legacy `validation.go`
implementation maps `email` to the generic "field is invalid". -/
theorem getErrorMessage_total_table (p ns : String) :
    (∀ tag, tag ∉ ["required", "email", "max", "min", "boolean", "oneof", "uuid"] →
      getErrorMessage ⟨tag, p, ns⟩ = "field is invalid") ∧
    getErrorMessage ⟨"required", p, ns⟩ = "field is required" ∧
    getErrorMessage ⟨"email", p, ns⟩ = "field must be a valid email address" ∧
    getErrorMessage ⟨"max", p, ns⟩ = "maximum length is " ++ p ∧
    getErrorMessage ⟨"min", p, ns⟩ = "minimum value is " ++ p ∧
    getErrorMessage ⟨"boolean", p, ns⟩ = "field must be a boolean" ∧
    getErrorMessage ⟨"oneof", p, ns⟩ = "field must be one of: " ++ replaceSpaceWithCommaSpace p ∧
    getErrorMessage ⟨"uuid", p, ns⟩ = "field must be a valid UUID" ∧
    (∀ tag, tag ∉ ["required", "max", "min", "boolean", "oneof"] →
      getErrorMessageLegacy ⟨tag, p, ns⟩ = "field is invalid") ∧
    getErrorMessageLegacy ⟨"email", p, ns⟩ = "field is invalid" := by
  refine ⟨?_, rfl, rfl, rfl, rfl, rfl, rfl, rfl, ?_, rfl⟩
  · intro tag h
    simp only [List.mem_cons, List.not_mem_nil, or_false, not_or] at h
    obtain ⟨h1, h2, h3, h4, h5, h6, h7⟩ := h
    simp [getErrorMessage, h1, h2, h3, h4, h5, h6, h7]
  · intro tag h
    simp only [List.mem_cons, List.not_mem_nil, or_false, not_or] at h
    obtain ⟨h1, h2, h3, h4, h5⟩ := h
    simp [getErrorMessageLegacy, h1, h2, h3, h4, h5]

/-- Witness for the amended C4 theorem at concrete inputs. -/
theorem getErrorMessage_total_table_witness :
    getErrorMessage ⟨"such-kind", "18", ""⟩ = "field is invalid" ∧
    getErrorMessage ⟨"email", "18", ""⟩ = "field must be a valid email address" ∧
    getErrorMessageLegacy ⟨"uuid", "18", ""⟩ = "field is invalid" := by
  refine ⟨(getErrorMessage_total_table "18" "").1 "such-kind" (by decide), ?_, ?_⟩
  · exact (getErrorMessage_total_table "18" "").2.2.1
  · exact (getErrorMessage_total_table "18" "").2.2.2.2.2.2.2.2.1 "uuid" (by decide)

/-! ## Claim C9 — external-name fallback rule -/

/-- Claim C9: both tag-name resolvers apply one fallback rule: when the part
of the declared tag before the first comma is empty (covering an absent tag,
for which `Tag.Get` returns the empty string, and an empty declaration) or
is the suppression marker `-`, the internal field identifier is used;
otherwise the declared name before the comma is used.  Concrete instances
cover the three fallback cases and the declared-name cases for both tag
kinds. -/
theorem tagName_fallback_rule :
    (∀ f : GoField, tagHead (fieldJsonTag f) = "" ∨ tagHead (fieldJsonTag f) = "-" →
      getJSONTagName f = fieldName f) ∧
    (∀ f : GoField, tagHead (fieldJsonTag f) ≠ "" → tagHead (fieldJsonTag f) ≠ "-" →
      getJSONTagName f = tagHead (fieldJsonTag f)) ∧
    (∀ f : GoField, tagHead (fieldFormTag f) = "" ∨ tagHead (fieldFormTag f) = "-" →
      getFormTagName f = fieldName f) ∧
    (∀ f : GoField, tagHead (fieldFormTag f) ≠ "" → tagHead (fieldFormTag f) ≠ "-" →
      getFormTagName f = tagHead (fieldFormTag f)) ∧
    (∀ n : String, getJSONTagName (n, "", "x", .stringT) = n) ∧
    (∀ n : String, getJSONTagName (n, "-", "x", .stringT) = n) ∧
    (∀ n : String, getJSONTagName (n, ",omitempty", "x", .stringT) = n) ∧
    (∀ n : String, getJSONTagName (n, "nick,omitempty", "x", .stringT) = "nick") ∧
    (∀ n : String, getFormTagName (n, "x", "", .stringT) = n) ∧
    (∀ n : String, getFormTagName (n, "x", "-", .stringT) = n) ∧
    (∀ n : String, getFormTagName (n, "x", ",omitempty", .stringT) = n) ∧
    (∀ n : String, getFormTagName (n, "x", "nick,omitempty", .stringT) = "nick") := by
  refine ⟨?_, ?_, ?_, ?_, fun n => rfl, fun n => rfl, fun n => rfl, fun n => rfl,
    fun n => rfl, fun n => rfl, fun n => rfl, fun n => rfl⟩
  · intro f h
    simp only [getJSONTagName]
    exact if_pos h
  · intro f h1 h2
    simp only [getJSONTagName]
    exact if_neg (by rintro (h | h) <;> [exact h1 h; exact h2 h])
  · intro f h
    simp only [getFormTagName]
    exact if_pos h
  · intro f h1 h2
    simp only [getFormTagName]
    exact if_neg (by rintro (h | h) <;> [exact h1 h; exact h2 h])

/-- Witness for C9 at concrete fields. -/
theorem tagName_fallback_rule_witness :
    getJSONTagName ("NoTag", "", "", GoType.stringT) = "NoTag" ∧
    getFormTagName ("Ignored", "", "-", GoType.stringT) = "Ignored" ∧
    getJSONTagName ("WithTag", "with_tag,omitempty", "", GoType.stringT) = "with_tag" := by
  refine ⟨tagName_fallback_rule.1 _ (Or.inl (by decide)),
    tagName_fallback_rule.2.2.1 _ (Or.inr (by decide)),
    tagName_fallback_rule.2.1 _ (by decide) (by decide)⟩

/-! ## Claim C5 — bracketed slice indices in resolved paths -/

theorem buildJSONPathAux_skip (part : String) (rest : List String) (cur : GoType)
    (path : List String) (hne : part ≠ "") (hbr : containsChar part '[' = false)
    (hf : fieldByName cur part = none) :
    buildJSONPathAux (part :: rest) cur path = buildJSONPathAux rest cur path := by
  rw [buildJSONPathAux, if_neg hne, if_neg (by simp [hbr]), hf]

theorem buildJSONPathAux_plain (part : String) (rest : List String) (cur : GoType)
    (path : List String) (f : GoField) (hne : part ≠ "")
    (hbr : containsChar part '[' = false) (hf : fieldByName cur part = some f) :
    buildJSONPathAux (part :: rest) cur path
      = buildJSONPathAux rest (derefPtr (fieldType f)) (path ++ [getJSONTagName f]) := by
  rw [buildJSONPathAux, if_neg hne, if_neg (by simp [hbr]), hf]

theorem buildJSONPathAux_bracket (part : String) (rest : List String) (cur : GoType)
    (path : List String) (f : GoField) (hne : part ≠ "")
    (hbr : containsChar part '[' = true) (hf : fieldByName cur (bracketName part) = some f) :
    buildJSONPathAux (part :: rest) cur path
      = buildJSONPathAux rest (derefPtr (sliceElem (fieldType f)))
          (path ++ [getJSONTagName f ++ "." ++ bracketIndex part]) := by
  rw [buildJSONPathAux, if_neg hne, if_pos hbr, hf]

theorem buildFormPathAux_skip (part : String) (rest : List String) (cur : GoType)
    (path : List String) (hne : part ≠ "") (hbr : containsChar part '[' = false)
    (hf : fieldByName cur part = none) :
    buildFormPathAux (part :: rest) cur path = buildFormPathAux rest cur path := by
  rw [buildFormPathAux, if_neg hne, if_neg (by simp [hbr]), hf]

theorem buildFormPathAux_plain (part : String) (rest : List String) (cur : GoType)
    (path : List String) (f : GoField) (hne : part ≠ "")
    (hbr : containsChar part '[' = false) (hf : fieldByName cur part = some f) :
    buildFormPathAux (part :: rest) cur path
      = buildFormPathAux rest (derefPtr (fieldType f)) (path ++ [getFormTagName f]) := by
  rw [buildFormPathAux, if_neg hne, if_neg (by simp [hbr]), hf]

theorem buildFormPathAux_bracket (part : String) (rest : List String) (cur : GoType)
    (path : List String) (f : GoField) (hne : part ≠ "")
    (hbr : containsChar part '[' = true) (hf : fieldByName cur (bracketName part) = some f) :
    buildFormPathAux (part :: rest) cur path
      = buildFormPathAux rest (derefPtr (sliceElem (fieldType f)))
          (path ++ [getFormTagName f ++ "." ++ bracketIndex part]) := by
  rw [buildFormPathAux, if_neg hne, if_pos hbr, hf]

/-- Claim C5: for any record shape holding a `Roles` field whose external
name is `roles` and whose slice-element shape (after one level of pointer
dereference) holds a `Name` field with external name `name`, the violation
path `Roles[0].Name` (as reported inside a `StructNamespace` prefixed with
the root type's name, which matches no field and is skipped) resolves to
`roles.0.name`: the bracketed segment contributes the external name, a dot
and the literal index, then the walk descends into the element shape.
Both the JSON and the form resolver are covered. -/
theorem buildPath_slice_index_literal (tg pm roleName : String)
    (root roleElemT : GoType) (rf nf : GoField)
    (roleFields : List (String × String × String × GoType))
    (h0 : fieldByName root "UserRequest" = none)
    (h1 : fieldByName root "Roles" = some rf)
    (hslice : fieldType rf = GoType.slice roleElemT)
    (helem : derefPtr roleElemT = GoType.structT roleName roleFields)
    (h2 : fieldByName (GoType.structT roleName roleFields) "Name" = some nf)
    (hjr : getJSONTagName rf = "roles") (hjn : getJSONTagName nf = "name")
    (hfr : getFormTagName rf = "roles") (hfn : getFormTagName nf = "name") :
    buildJSONPath root ⟨tg, pm, "UserRequest.Roles[0].Name"⟩ = "roles.0.name" ∧
    buildFormPath root ⟨tg, pm, "UserRequest.Roles[0].Name"⟩ = "roles.0.name" := by
  have hsplit : splitOnChar '.' "UserRequest.Roles[0].Name"
      = ["UserRequest", "Roles[0]", "Name"] := by decide
  have hb : bracketName "Roles[0]" = "Roles" := by decide
  have hbi : bracketIndex "Roles[0]" = "0" := by decide
  have hcur : derefPtr (sliceElem (fieldType rf)) = GoType.structT roleName roleFields := by
    rw [hslice]; simpa [sliceElem] using helem
  constructor
  · show stringsJoin "." (buildJSONPathAux (splitOnChar '.' "UserRequest.Roles[0].Name") root []) = _
    rw [hsplit]
    rw [buildJSONPathAux_skip _ _ _ _ (by decide) (by decide) h0]
    rw [buildJSONPathAux_bracket _ _ _ _ rf (by decide) (by decide) (hb ▸ h1), hcur, hjr, hbi]
    rw [buildJSONPathAux_plain _ _ _ _ nf (by decide) (by decide) h2, hjn]
    rfl
  · show stringsJoin "." (buildFormPathAux (splitOnChar '.' "UserRequest.Roles[0].Name") root []) = _
    rw [hsplit]
    rw [buildFormPathAux_skip _ _ _ _ (by decide) (by decide) h0]
    rw [buildFormPathAux_bracket _ _ _ _ rf (by decide) (by decide) (hb ▸ h1), hcur, hfr, hbi]
    rw [buildFormPathAux_plain _ _ _ _ nf (by decide) (by decide) h2, hfn]
    rfl

/-- Witness for C5 on the documented `UserRequest` shape. -/
theorem buildPath_slice_index_literal_witness :
    buildJSONPath userShape ⟨"required", "", "UserRequest.Roles[0].Name"⟩ = "roles.0.name" ∧
    buildFormPath userShape ⟨"required", "", "UserRequest.Roles[0].Name"⟩ = "roles.0.name" := by
  exact buildPath_slice_index_literal "required" "" "Role" userShape roleShape
    ("Roles", "roles", "roles", .slice roleShape) ("Name", "name", "name", .stringT)
    [("ID", "id", "id", .stringT), ("Name", "name", "name", .stringT)]
    rfl rfl rfl rfl rfl rfl rfl rfl rfl

/-! ## Claim C8 — nil-or-non-empty field-error maps -/

/-- Claim C8: under the constraint engine's contract (a reported failure
carries at least one violation), the validation pass — `Validate` as well as
`ValidateForm` — returns either a nil map with no error (all constraints
satisfied) or a non-empty map with the invalid-data error; never an
empty-but-non-nil map. -/
theorem validate_map_nil_or_nonempty (er : Option (List FieldError)) (root : GoType)
    (hcontract : er ≠ some []) :
    fieldErrorMapInvariant (Validate er root) ∧ fieldErrorMapInvariant (ValidateForm er root) := by
  cases er with
  | none => exact ⟨Or.inl rfl, Or.inl rfl⟩
  | some vs =>
    cases vs with
    | nil => exact absurd rfl hcontract
    | cons v rest =>
      constructor
      · refine Or.inr ⟨_, rfl, ?_, rfl⟩
        show (v :: rest).foldl
          (fun acc fe => mapAppend acc (buildJSONPath root fe) (getErrorMessage fe)) [] ≠ []
        rw [List.foldl_cons]
        exact foldl_mapAppend_ne_nil (buildJSONPath root) getErrorMessage rest _
          (mapAppend_ne_nil _ _ _)
      · refine Or.inr ⟨_, rfl, ?_, rfl⟩
        show (v :: rest).foldl
          (fun acc fe => mapAppend acc (buildFormPath root fe) (getErrorMessage fe)) [] ≠ []
        rw [List.foldl_cons]
        exact foldl_mapAppend_ne_nil (buildFormPath root) getErrorMessage rest _
          (mapAppend_ne_nil _ _ _)

/-- Witness for C8: a valid verdict and a one-violation verdict. -/
theorem validate_map_nil_or_nonempty_witness :
    fieldErrorMapInvariant (Validate none loginShape) ∧
    fieldErrorMapInvariant (Validate (some [⟨"required", "", "LoginRequest.Email"⟩]) loginShape) := by
  exact ⟨(validate_map_nil_or_nonempty none loginShape (by simp)).1,
    (validate_map_nil_or_nonempty (some [⟨"required", "", "LoginRequest.Email"⟩]) loginShape
      (by simp)).1⟩

/-! ## Claim C1 — unknown JSON key -/

/-- Claim C1, counterexample: a strict-decode failure for an undeclared key
(a plain `errors.New`-style error, not one of the two types
`getJsonErrorMessage` converts) is NOT classified as invalid body: with a
populated record satisfying all constraints, `BindAndValidateJSON` returns
success `(nil, nil)` instead of the invalid-body error the claim requires. -/
theorem bindAndValidateJSON_unknownKey_counterexample :
    BindAndValidateJSON false (some (GoError.jsonUnknownField "extra")) none loginShape
      = (none, none) ∧
    (BindAndValidateJSON false (some (GoError.jsonUnknownField "extra")) none loginShape).2
      ≠ some GoError.err400InvalidBody := by
  exact ⟨rfl, by decide⟩

/-- Claim C1 (amended): for a JSON body containing an undeclared key the
strict decoder does fail inside `BindJSON`, but `BindAndValidateJSON` does
not classify that failure: `getJsonErrorMessage` converts only syntax and
type-mismatch errors, so the unknown-key error is discarded and constraint
validation runs on the populated record — its outcome (success included) is
what the call returns. -/
theorem bindAndValidateJSON_unknownKey_swallowed (key : String)
    (er : Option (List FieldError)) (root : GoType) :
    BindAndValidateJSON false (some (GoError.jsonUnknownField key)) er root
      = Validate er root := rfl

/-! ## Claim C2 — non-convertible decode errors -/

/-- Claim C2, counterexample: a generic I/O decode failure (`io.EOF` on an
empty body) is not propagated to the caller: `BindAndValidateJSON` discards
it, runs constraint validation, and returns the validation outcome — here a
field-error map and the invalid-data error (exactly the repository's
"Empty body (EOF)" test expectation), not the original EOF error. -/
theorem bindAndValidateJSON_eof_counterexample :
    BindAndValidateJSON false (some GoError.ioEOF)
        (some [⟨"required", "", "LoginRequest.Email"⟩, ⟨"required", "", "LoginRequest.Password"⟩])
        loginShape
      = (some [("email", ["field is required"]), ("password", ["field is required"])],
         some GoError.err400InvalidData) ∧
    (BindAndValidateJSON false (some GoError.ioEOF)
        (some [⟨"required", "", "LoginRequest.Email"⟩, ⟨"required", "", "LoginRequest.Password"⟩])
        loginShape).2 ≠ some GoError.ioEOF := by
  exact ⟨rfl, by decide⟩

/-- Claim C2 (amended): a decode error that is neither a syntax error nor a
type-mismatch error naming a field is silently discarded — no field-error
map is derived from it, it is not returned, and constraint validation runs
on the (possibly partially populated) record, whose outcome is returned. -/
theorem bindAndValidateJSON_generic_error_swallowed (err : GoError)
    (h1 : ∀ off, err ≠ GoError.jsonSyntaxError off)
    (h2 : ∀ v t f, err = GoError.jsonUnmarshalTypeError v t f → f = "")
    (er : Option (List FieldError)) (root : GoType) :
    BindAndValidateJSON false (some err) er root = Validate er root := by
  cases err with
  | jsonSyntaxError off => exact absurd rfl (h1 off)
  | jsonUnmarshalTypeError v t f =>
    have hf : f = "" := h2 v t f rfl
    subst hf
    rfl
  | err400InvalidBody => rfl
  | err400InvalidData => rfl
  | formTypeError f e g => rfl
  | strconvError s => rfl
  | ioEOF => rfl
  | jsonUnknownField k => rfl
  | errorString m => rfl

/-- Witness for the amended C2 theorem at `io.EOF`. -/
theorem bindAndValidateJSON_generic_error_swallowed_witness :
    BindAndValidateJSON false (some GoError.ioEOF) none loginShape = Validate none loginShape := by
  exact bindAndValidateJSON_generic_error_swallowed GoError.ioEOF
    (fun off h => by cases h) (fun v t f h => by cases h) none loginShape

/-! ## Claim C6 — JSON type-mismatch short-circuit -/

/-- Claim C6: a decode type-mismatch failure naming a field short-circuits
constraint validation (the result does not depend on the engine verdict
`er`): `BindAndValidateJSON` returns the single-entry map keyed by the
offending field's wire name with message "invalid type, expected " plus the
expected type's name, and the invalid-data error. -/
theorem bindAndValidateJSON_typeMismatch_map (v t f : String) (hf : f ≠ "")
    (er : Option (List FieldError)) (root : GoType) :
    BindAndValidateJSON false (some (GoError.jsonUnmarshalTypeError v t f)) er root
      = (some [(f, ["invalid type, expected " ++ t])], some GoError.err400InvalidData) := by
  simp [BindAndValidateJSON, BindJSON, getJsonErrorMessage, hf]

/-- Witness for C6: the repository's "Wrong type (password should be
string)" test case. -/
theorem bindAndValidateJSON_typeMismatch_map_witness :
    BindAndValidateJSON false (some (GoError.jsonUnmarshalTypeError "123" "string" "password"))
        none loginShape
      = (some [("password", ["invalid type, expected string"])],
         some GoError.err400InvalidData) := by
  exact bindAndValidateJSON_typeMismatch_map "123" "string" "password" (by decide) none loginShape

/-! ## Claim C3 — nil / non-struct form targets -/

/-- Claim C3, counterexample: for a nil-pointer target, `bindFormValues`
does fail with the invalid-body error, but `BindAndValidateForm` does not
return it: the error matches neither case of `getFormErrorMessage` and is
discarded, the call falls through into the constraint-validation pass, and
there `Validator.Struct` on the nil-pointer input returns a
`*validator.InvalidValidationError`, on which the unchecked
`err.(validator.ValidationErrors)` cast panics — the call panics instead of
returning the invalid-body kind (or any value) as the claim requires. -/
theorem bindAndValidateForm_nilTarget_counterexample :
    bindFormValues [] none FormTarget.nilPtr
      = (FormTarget.nilPtr, some GoError.err400InvalidBody) ∧
    BindAndValidateFormFull none [] none FormTarget.nilPtr
        EngineVerdict.invalidValidation loginShape
      = Outcome.panicked ∧
    BindAndValidateFormFull none [] none FormTarget.nilPtr
        EngineVerdict.invalidValidation loginShape
      ≠ Outcome.ret (none, some GoError.err400InvalidBody) := by
  exact ⟨rfl, rfl, by decide⟩

/-- Claim C3 (amended): for a target that is not a non-nil pointer to a
struct, `bindFormValues` itself fails with the invalid-body error and no
field-error map, but `BindAndValidateForm` does not return that error:
`getFormErrorMessage` converts only `FormTypeError` and `json.SyntaxError`,
so the invalid-body error is discarded and control falls through into the
constraint-validation pass.  On such a target `Validator.Struct` returns a
`*validator.InvalidValidationError` (the `EngineVerdict.invalidValidation`
case), and `ValidateForm`'s unchecked `err.(validator.ValidationErrors)`
cast panics: the call panics instead of returning, so in particular the
caller never receives the invalid-body kind. -/
theorem bindAndValidateForm_invalidTarget_panics
    (values : List (String × List String)) (mform : Option (List (String × List FileHeader)))
    (input : FormTarget)
    (h : input = FormTarget.nilPtr ∨ (∃ v, input = FormTarget.nonPtr v) ∨
      (∃ v, input = FormTarget.ptrNonStruct v))
    (root : GoType) :
    (bindFormValues values mform input).2 = some GoError.err400InvalidBody ∧
    BindAndValidateFormFull none values mform input EngineVerdict.invalidValidation root
      = Outcome.panicked := by
  obtain h | ⟨v, h⟩ | ⟨v, h⟩ := h <;> subst h <;> exact ⟨rfl, rfl⟩

/-- Witness for the amended C3 theorem for a pointer-to-non-struct
target. -/
theorem bindAndValidateForm_invalidTarget_panics_witness :
    (bindFormValues [] none (FormTarget.ptrNonStruct (GoValue.vInt 7))).2
      = some GoError.err400InvalidBody ∧
    BindAndValidateFormFull none [] none (FormTarget.ptrNonStruct (GoValue.vInt 7))
        EngineVerdict.invalidValidation loginShape
      = Outcome.panicked := by
  exact bindAndValidateForm_invalidTarget_panics [] none
    (FormTarget.ptrNonStruct (GoValue.vInt 7)) (Or.inr (Or.inr ⟨_, rfl⟩)) loginShape

/-! ## Claim C7 — per-field form coercion rules -/

/-- Claim C7: in form binding, an empty submitted string for a pointer
field leaves the field untouched (nil stays nil) with no error; an empty
string for a non-pointer numeric (or boolean) field leaves it at its
current (zero) value with no error; and a non-empty unparsable value for a
numeric or boolean field makes the full bind-and-validate call return a
type error keyed by the field's external form name. -/
theorem formBinding_empty_and_unparsable :
    (∀ (t : GoType) (cur : GoValue) (rest : List String),
      setFieldValue (GoType.ptr t) cur ("" :: rest) = Except.ok cur) ∧
    (∀ cur : GoValue, setScalarValue GoType.intT cur "" = Except.ok cur) ∧
    (∀ cur : GoValue, setScalarValue GoType.uintT cur "" = Except.ok cur) ∧
    (∀ cur : GoValue, setScalarValue GoType.boolT cur "" = Except.ok cur) ∧
    (∀ (fname tag raw : String) (er : Option (List FieldError)) (root : GoType),
      tag ≠ "" → tag ≠ "-" → raw ≠ "" → parseIntGo raw = none →
      BindAndValidateForm none [(tagHead tag, [raw])] none
          (FormTarget.ptrStruct [(fname, "", tag, GoType.intT)] [GoValue.vInt 0]) er root
        = (some [(tagHead tag, ["invalid type, expected int"])],
           some GoError.err400InvalidData)) ∧
    (∀ (fname tag raw : String) (er : Option (List FieldError)) (root : GoType),
      tag ≠ "" → tag ≠ "-" → raw ≠ "" → parseBoolGo raw = none →
      BindAndValidateForm none [(tagHead tag, [raw])] none
          (FormTarget.ptrStruct [(fname, "", tag, GoType.boolT)] [GoValue.vBool false]) er root
        = (some [(tagHead tag, ["invalid type, expected bool"])],
           some GoError.err400InvalidData)) := by
  refine ⟨fun t cur rest => rfl, fun cur => rfl, fun cur => rfl, fun cur => rfl, ?_, ?_⟩
  · intro fname tag raw er root h1 h2 h3 h4
    have hone : bindOneField [(tagHead tag, [raw])] none (fname, "", tag, GoType.intT)
        (GoValue.vInt 0)
        = (GoValue.vInt 0, some (GoError.formTypeError (tagHead tag) "int" raw)) := by
      simp only [bindOneField, fieldFormTag, fieldType, isFileField]
      rw [if_neg (by rintro (h | h) <;> [exact h1 h; exact h2 h])]
      simp only [List.lookup, beq_self_eq_true, setFieldValue, setScalarValue, List.headD]
      rw [if_neg h3, h4]
      rfl
    show BindAndValidateForm _ _ _ _ _ _ = _
    simp only [BindAndValidateForm, BindForm, bindFormValues, bindFields, hone,
      getFormErrorMessage]
    rfl
  · intro fname tag raw er root h1 h2 h3 h4
    have hone : bindOneField [(tagHead tag, [raw])] none (fname, "", tag, GoType.boolT)
        (GoValue.vBool false)
        = (GoValue.vBool false, some (GoError.formTypeError (tagHead tag) "bool" raw)) := by
      simp only [bindOneField, fieldFormTag, fieldType, isFileField]
      rw [if_neg (by rintro (h | h) <;> [exact h1 h; exact h2 h])]
      simp only [List.lookup, beq_self_eq_true, setFieldValue, setScalarValue, List.headD]
      rw [if_neg h3, h4]
      rfl
    show BindAndValidateForm _ _ _ _ _ _ = _
    simp only [BindAndValidateForm, BindForm, bindFormValues, bindFields, hone,
      getFormErrorMessage]
    rfl

/-- Witness for C7 at concrete inputs. -/
theorem formBinding_empty_and_unparsable_witness :
    setFieldValue (GoType.ptr GoType.intT) (GoValue.vPtr none) [""]
      = Except.ok (GoValue.vPtr none) ∧
    setScalarValue GoType.intT (GoValue.vInt 0) "" = Except.ok (GoValue.vInt 0) ∧
    BindAndValidateForm none [("age", ["abc"])] none
        (FormTarget.ptrStruct [("Age", "", "age", GoType.intT)] [GoValue.vInt 0]) none loginShape
      = (some [("age", ["invalid type, expected int"])], some GoError.err400InvalidData) := by
  refine ⟨formBinding_empty_and_unparsable.1 GoType.intT (GoValue.vPtr none) [],
    formBinding_empty_and_unparsable.2.1 (GoValue.vInt 0), ?_⟩
  exact formBinding_empty_and_unparsable.2.2.2.2.1 "Age" "age" "abc" none loginShape
    (by decide) (by decide) (by decide) (by decide)

/-! ## Claim C10 — form binding is not atomic -/

theorem bindFields_append_error (values : List (String × List String))
    (mform : Option (List (String × List FileHeader)))
    (pre : List GoField) (preVals preVals' : List GoValue)
    (fB : GoField) (vB : GoValue) (e : GoError)
    (post : List GoField) (postVals : List GoValue)
    (hlen : pre.length = preVals.length)
    (hpre : bindFields values mform pre preVals = (preVals', none))
    (hB : bindOneField values mform fB vB = (vB, some e)) :
    bindFields values mform (pre ++ fB :: post) (preVals ++ vB :: postVals)
      = (preVals' ++ vB :: postVals, some e) := by
  induction pre generalizing preVals preVals' with
  | nil =>
    cases preVals with
    | cons _ _ => simp at hlen
    | nil =>
      have hpv : preVals' = [] := by
        have : (([] : List GoValue), (none : Option GoError)) = (preVals', none) := hpre
        exact (Prod.mk.injEq _ _ _ _).mp this.symm |>.1.symm ▸ rfl
      subst hpv
      simp only [List.nil_append, bindFields, hB]
  | cons f fs ih =>
    cases preVals with
    | nil => simp at hlen
    | cons v vs =>
      have hlen' : fs.length = vs.length := by simpa using hlen
      rw [List.cons_append, List.cons_append]
      rcases hb : bindOneField values mform f v with ⟨v1, e1⟩
      cases e1 with
      | some e1 =>
        rw [bindFields, hb] at hpre
        exact absurd (congrArg Prod.snd hpre) (by simp)
      | none =>
        rcases hrest : bindFields values mform fs vs with ⟨vs1, e2⟩
        rw [bindFields, hb, hrest] at hpre
        cases e2 with
        | some e2 => exact absurd (congrArg Prod.snd hpre) (by simp)
        | none =>
          have hpv : preVals' = v1 :: vs1 := by
            have := congrArg Prod.fst hpre
            simpa using this.symm
          subst hpv
          rw [bindFields, hb, ih vs vs1 hlen' hrest]
          rfl

/-- Claim C10: form binding is not atomic.  If every field of a leading
segment binds without error and the next field's coercion fails, the bound
record keeps the coerced values of the leading segment (and the failing and
remaining fields keep their old values) while the bind reports the type
error — nothing is rolled back. -/
theorem bindFormValues_keeps_earlier_fields (values : List (String × List String))
    (mform : Option (List (String × List FileHeader)))
    (pre : List GoField) (preVals preVals' : List GoValue)
    (fB : GoField) (vB : GoValue) (e : GoError)
    (post : List GoField) (postVals : List GoValue)
    (hlen : pre.length = preVals.length)
    (hpre : bindFields values mform pre preVals = (preVals', none))
    (hB : bindOneField values mform fB vB = (vB, some e)) :
    bindFormValues values mform
        (FormTarget.ptrStruct (pre ++ fB :: post) (preVals ++ vB :: postVals))
      = (FormTarget.ptrStruct (pre ++ fB :: post) (preVals' ++ vB :: postVals), some e) := by
  simp only [bindFormValues,
    bindFields_append_error values mform pre preVals preVals' fB vB e post postVals
      hlen hpre hB]

/-- Witness for C10: `name` coerces to "Alice" before `age` fails on
"abc"; the bound record keeps "Alice". -/
theorem bindFormValues_keeps_earlier_fields_witness :
    bindFormValues sampleFormValues none
        (FormTarget.ptrStruct [sampleNameField, sampleAgeField] [GoValue.vStr "", GoValue.vInt 0])
      = (FormTarget.ptrStruct [sampleNameField, sampleAgeField]
          [GoValue.vStr "Alice", GoValue.vInt 0],
         some (GoError.formTypeError "age" "int" "abc")) := by
  exact bindFormValues_keeps_earlier_fields sampleFormValues none
    [sampleNameField] [GoValue.vStr ""] [GoValue.vStr "Alice"]
    sampleAgeField (GoValue.vInt 0) (GoError.formTypeError "age" "int" "abc")
    [] [] rfl rfl rfl

end StxGoUtils
